import Mathlib

set_option autoImplicit false

/-!
Shallow embedding of the gaxios request library core
(`src/gaxios.ts`, `src/common.ts`, `src/interceptor.ts`), with the
retry engine (`src/retry.ts`, present in the repository only through its
callers, declarations and tests) modelled from the specification.
-/

namespace GaxiosModel

/-- Character-list version of the prefix test (kept kernel-computable). -/
def isPrefOf : List Char → List Char → Bool
  | [], _ => true
  | _ :: _, [] => false
  | a :: as, b :: bs => a == b && isPrefOf as bs

/-- Character-list version of the substring test. -/
def listContainsSub : List Char → List Char → Bool
  | [], pat => isPrefOf pat []
  | s@(_ :: rest), pat => isPrefOf pat s || listContainsSub rest pat

/-- JS `String.prototype.toLowerCase`. -/
def strToLower (s : String) : String := ⟨s.data.map Char.toLower⟩

/-- JS-style substring test (`String.prototype.includes`). -/
def strContains (s pat : String) : Bool :=
  listContainsSub s.data pat.data

/-- JS `String.prototype.startsWith`. -/
def strStartsWith (s pat : String) : Bool := isPrefOf pat.data s.data

/-- JS `String.prototype.endsWith`. -/
def strEndsWith (s pat : String) : Bool := isPrefOf pat.data.reverse s.data.reverse

/-- JS `String.prototype.slice(n)` for a non-negative start. -/
def strDrop (s : String) (n : Nat) : String := ⟨s.data.drop n⟩

/-- JS `String.prototype.trim`. -/
def strTrim (s : String) : String :=
  ⟨((s.data.dropWhile Char.isWhitespace).reverse.dropWhile Char.isWhitespace).reverse⟩

/-- Split a character list at every occurrence of a separator character. -/
def splitChars (c : Char) : List Char → List (List Char)
  | [] => [[]]
  | ch :: rest =>
    let r := splitChars c rest
    if ch == c then [] :: r
    else
      match r with
      | [] => [[ch]]
      | g :: gs => (ch :: g) :: gs

/-- JS `String.prototype.split(',')`. -/
def splitOnComma (s : String) : List String :=
  (splitChars ',' s.data).map (fun l => ⟨l⟩)

/-- The characters after the first occurrence of `pat`, if `pat` occurs. -/
def afterSub (pat : List Char) : List Char → Option (List Char)
  | [] => if pat.isEmpty then some [] else none
  | ch :: rest =>
    if isPrefOf pat (ch :: rest) then some (List.drop pat.length (ch :: rest))
    else afterSub pat rest

/-- JS object property access `headers[k]` with an exact (case-sensitive) key. -/
def lookupExact (hs : List (String × String)) (k : String) : Option String :=
  (hs.find? (fun p => p.1 == k)).map Prod.snd

/-- Embeds `getHeader` from `src/gaxios.ts`: case-insensitive lookup over the header keys. -/
def getHeaderCI (hs : List (String × String)) (k : String) : Option String :=
  (hs.find? (fun p => strToLower p.1 == strToLower k)).map Prod.snd

/-- Embeds `hasHeader` from `src/gaxios.ts`: JS truthiness of `getHeader` (absent or empty is falsy). -/
def hasHeaderCI (hs : List (String × String)) (k : String) : Bool :=
  match getHeaderCI hs k with
  | none => false
  | some s => !(s == "")

/-- JS object property assignment `headers[k] = v`: overwrite an existing exact key in
place, otherwise append. -/
def setHeaderExact (hs : List (String × String)) (k v : String) : List (String × String) :=
  if (hs.find? (fun p => p.1 == k)).isSome then
    hs.map (fun p => if p.1 == k then (p.1, v) else p)
  else
    hs ++ [(k, v)]

/-- JS `a || b` for an optional string `a` (`undefined` and `""` are falsy). -/
def falsyOr (v : Option String) (dflt : String) : String :=
  match v with
  | none => dflt
  | some s => if s == "" then dflt else s

/-- JS truthiness check `!u` for an optional string (absent or empty). -/
def isFalsyStr (v : Option String) : Bool :=
  match v with
  | none => true
  | some s => s == ""

/-! Section: Multipart body builder (`Gaxios.getMultipartRequest`, `src/gaxios.ts`) -/

/-- One part of a `multipart/related` request (`GaxiosMultipartOptions` in
`src/common.ts`): per-part headers, and content that is either a string or a
stream, the latter embedded as its ordered list of chunks. -/
structure GaxiosMultipartOptions where
  headers : List (String × String)
  content : String ⊕ List String

/-- Embeds `Gaxios.getMultipartRequest` from `src/gaxios.ts`: the async generator that
yields the pieces of a `multipart/related` body, embedded as the list of yielded
chunks in order. For each part it yields
`--boundary\r\nContent-Type: ct\r\n\r\n`, then the content (a string directly, a
stream chunk by chunk), then `\r\n`; after the loop it yields `--boundary--`. -/
def getMultipartRequest :
    List GaxiosMultipartOptions → String → List String
  | [], boundary => ["--" ++ boundary ++ "--"]
  | currentPart :: rest, boundary =>
    let partContentType :=
      falsyOr (lookupExact currentPart.headers "Content-Type") "application/octet-stream"
    let preamble := "--" ++ boundary ++ "\r\nContent-Type: " ++ partContentType ++ "\r\n\r\n"
    preamble ::
      ((match currentPart.content with
        | Sum.inl s => [s]
        | Sum.inr chunks => chunks) ++
        ("\r\n" :: getMultipartRequest rest boundary))

/-- The chunk sequence the specification prescribes for a single part: preamble
with the part's content type (defaulting to `application/octet-stream`), the
content, then `\r\n`. -/
def multipartPartChunks (boundary : String) (p : GaxiosMultipartOptions) : List String :=
  ("--" ++ boundary ++ "\r\nContent-Type: " ++
      falsyOr (lookupExact p.headers "Content-Type") "application/octet-stream" ++
      "\r\n\r\n") ::
    ((match p.content with
      | Sum.inl s => [s]
      | Sum.inr chunks => chunks) ++ ["\r\n"])

/-! Section: Interceptor manager (`src/interceptor.ts`) -/

/-- Embeds `GaxiosInterceptorManager` from `src/interceptor.ts`: the interceptor queue
(`null` entries are inert slots) together with the iterator index `#index`,
which lives on the manager itself — the manager is its own iterator. -/
structure InterceptorManager (α : Type) where
  interceptorQueue : List (Option α)
  index : Nat

/-- A fresh manager, as built by the `GaxiosInterceptorManager` constructor. -/
def InterceptorManager.empty (α : Type) : InterceptorManager α := ⟨[], 0⟩

/-- Embeds `addInterceptor`: `queue.push(interceptor) - 1` — appends and returns the
insertion index. -/
def addInterceptor {α : Type} (m : InterceptorManager α) (i : α) :
    InterceptorManager α × Nat :=
  ({ m with interceptorQueue := m.interceptorQueue ++ [some i] },
    m.interceptorQueue.length)

/-- Embeds `removeInterceptor`: if `queue[id]` is truthy (an interceptor, not `null`
or out of range), set the slot to `null`; otherwise do nothing. -/
def removeInterceptor {α : Type} (m : InterceptorManager α) (id : Nat) :
    InterceptorManager α :=
  if (m.interceptorQueue.getD id none).isSome then
    { m with interceptorQueue := m.interceptorQueue.set id none }
  else m

/-- Embeds `removeAll`: replaces the queue with a fresh empty array (the iterator
index is not touched). -/
def removeAllInterceptors {α : Type} (m : InterceptorManager α) : InterceptorManager α :=
  { m with interceptorQueue := [] }

/-- Result of one `next()` call: the `done` flag, and the yielded `value`
(`none` models JS `undefined` for an out-of-range read; `some q` is the queue
entry, itself an `Option` since slots may be `null`). -/
structure IterResult (α : Type) where
  done : Bool
  value : Option (Option α)

/-- Embeds `next()` from `src/interceptor.ts`: reads `queue[index]` if in range,
reports `done` when the (pre-increment) index has reached the queue length,
and increments the index unconditionally. The index is never reset. -/
def InterceptorManager.next {α : Type} (m : InterceptorManager α) :
    IterResult α × InterceptorManager α :=
  let value :=
    if h : m.index < m.interceptorQueue.length then
      some (m.interceptorQueue.get ⟨m.index, h⟩)
    else none
  (⟨decide (m.interceptorQueue.length ≤ m.index), value⟩,
    { m with index := m.index + 1 })

/-- A complete `for..of` iteration over the manager: repeatedly call `next()`
until it reports `done`, collecting the yielded entries in order. The final
`done` call still increments the index. -/
def drain {α : Type} (m : InterceptorManager α) :
    List (Option α) × InterceptorManager α :=
  if _h : m.index < m.interceptorQueue.length then
    let r := m.next
    let rest := drain r.2
    (r.1.value.getD none :: rest.1, rest.2)
  else ([], m.next.2)
termination_by m.interceptorQueue.length - m.index
decreasing_by
  simp only [InterceptorManager.next]
  omega

/-- Embeds `Gaxios.#applyInterceptors` (request phase, happy path) from
`src/gaxios.ts`: iterate the manager with `for..of`, and for each non-`null`
entry apply its `resolved` handler to the running value; inert (`null`) slots
are skipped. Returns the transformed value and the manager as the iteration
left it. -/
def applyInterceptors {β : Type} (m : InterceptorManager (β → β)) (v : β) :
    β × InterceptorManager (β → β) :=
  let d := drain m
  (d.1.foldl (fun acc i => match i with | some f => f acc | none => acc) v, d.2)

/-- One mutation of the interceptor chain: an `addInterceptor` or a
`removeInterceptor` call. -/
inductive InterceptorOp (α : Type) where
  | add (i : α)
  | remove (id : Nat)

/-- Run a sequence of add/remove operations against a manager, collecting the
identifiers returned by the `add` calls in order. -/
def runInterceptorOps {α : Type} (m : InterceptorManager α) :
    List (InterceptorOp α) → InterceptorManager α × List Nat
  | [] => (m, [])
  | InterceptorOp.add i :: rest =>
    let r := addInterceptor m i
    let t := runInterceptorOps r.1 rest
    (t.1, r.2 :: t.2)
  | InterceptorOp.remove id :: rest =>
    runInterceptorOps (removeInterceptor m id) rest

/-! Section: Retry/backoff engine

The retry engine (`getRetryConfig` / `shouldRetryRequest` in `src/retry.ts`)
is present in the repository only through its callers (`Gaxios._request`), the
`RetryConfig` declaration in `src/common.ts` and its tests, so it is modelled
from the specification here. The defaults below are the ones declared on
`RetryConfig` in `src/common.ts`. -/

/-- JS `Number.MAX_SAFE_INTEGER`, the default for `totalTimeout` and
`maxRetryDelay` per `src/common.ts`. -/
def maxSafeInteger : Nat := 2 ^ 53 - 1

/-- Embeds `RetryConfig` from `src/common.ts`, with all fields resolved to their
documented defaults: `retry` 3, `currentRetryAttempt` 0, `retryDelay` 100ms,
methods GET/PUT/HEAD/OPTIONS/DELETE, status ranges
[100,199], [408,408], [429,429], [500,599], `noResponseRetries` 2,
`retryDelayMultiplier` 2, `totalTimeout` and `maxRetryDelay` effectively
unbounded. -/
structure RetryConfig where
  retry : Nat := 3
  currentRetryAttempt : Nat := 0
  retryDelay : Nat := 100
  httpMethodsToRetry : List String := ["GET", "PUT", "HEAD", "OPTIONS", "DELETE"]
  statusCodesToRetry : List (Nat × Nat) := [(100, 199), (408, 408), (429, 429), (500, 599)]
  noResponseRetries : Nat := 2
  retryDelayMultiplier : Nat := 2
  totalTimeout : Nat := maxSafeInteger
  maxRetryDelay : Nat := maxSafeInteger
  timeOfFirstRequest : Nat := 0
deriving Repr, DecidableEq

/-- The `RetryConfig` with every field at its default. -/
def defaultRetryConfig : RetryConfig := {}

/-- What the retry engine sees of one failed attempt: the request method, the
HTTP status if a response exists (`none` for pure transport failures), and
whether the failure is a caller-initiated abort (as opposed to a
timeout-derived one). -/
structure AttemptFailure where
  method : String
  status : Option Nat
  callerAborted : Bool := false
deriving Repr, DecidableEq

/-- Does `s` fall within one of the retryable status ranges (inclusive)? -/
def statusInRanges (ranges : List (Nat × Nat)) (s : Nat) : Bool :=
  ranges.any (fun r => decide (r.1 ≤ s) && decide (s ≤ r.2))

/-- Modelled from the spec: `shouldRetryRequest` of the missing `src/retry.ts`.
Classifies a failed attempt (spec §4.5): a caller-initiated abort is never
eligible; a caller-supplied `shouldRetry` predicate (its result passed here as
`veto`) can veto but not force; with no HTTP response, eligibility is governed
by the `noResponseRetries` budget; with a response, the method must be in
`httpMethodsToRetry` AND the status must fall in one of `statusCodesToRetry`,
within the `retry` budget. -/
def shouldRetryRequest (cfg : RetryConfig) (veto : Option Bool)
    (err : AttemptFailure) : Bool :=
  if err.callerAborted then false
  else if veto == some false then false
  else
    match err.status with
    | none => decide (cfg.currentRetryAttempt < cfg.noResponseRetries)
    | some s =>
      cfg.httpMethodsToRetry.contains err.method &&
        statusInRanges cfg.statusCodesToRetry s &&
        decide (cfg.currentRetryAttempt < cfg.retry)

/-- Modelled from the spec: the default backoff computation of the missing
`src/retry.ts` — `min(maxRetryDelay, retryDelay * retryDelayMultiplier ^
currentRetryAttempt)`. -/
def computeRetryDelay (cfg : RetryConfig) : Nat :=
  min cfg.maxRetryDelay (cfg.retryDelay * cfg.retryDelayMultiplier ^ cfg.currentRetryAttempt)

/-- Modelled from the spec: the delay before re-dispatch — the value produced
by a caller-supplied async backoff function when one is configured (`backoff`),
otherwise the default exponential computation. -/
def appliedRetryDelay (cfg : RetryConfig) (backoff : Option Nat) : Nat :=
  match backoff with
  | some b => b
  | none => computeRetryDelay cfg

/-- Modelled from the spec: the time actually slept before re-dispatch at
wall-clock time `now`. The remaining budget under `totalTimeout` (counted from
`timeOfFirstRequest`) caps the computed delay: if it is smaller, the sleep is
shortened to exactly the remaining budget. -/
def sleepDuration (cfg : RetryConfig) (backoff : Option Nat) (now : Nat) : Nat :=
  let d := appliedRetryDelay cfg backoff
  let remaining := cfg.totalTimeout - (now - cfg.timeOfFirstRequest)
  if remaining < d then remaining else d

/-- The terminal outcome of the request loop: a status accepted by
`validateStatus`, or the wrapped error of the last attempt carrying the final
retry state (`GaxiosError.config.retryConfig`). -/
inductive RequestOutcome where
  | ok (status : Nat)
  | error (message : String) (cfg : RetryConfig)
deriving Repr, DecidableEq

/-- The default `validateStatus` of `Gaxios` (`src/gaxios.ts`): accept
`200 <= status < 300`. -/
def validateStatusDefault (s : Nat) : Bool :=
  decide (200 ≤ s) && decide (s < 300)

/-- Embeds `Gaxios._request` from `src/gaxios.ts`, specialised to a transport that
always produces an HTTP response: dispatch (`transport` maps the invocation
index to a status), validate the status, and on failure consult the retry
engine; when it approves, copy the incremented `currentRetryAttempt` into the
carried config and re-dispatch. Returns the outcome and the total number of
transport invocations. `fuel` bounds the recursion and is irrelevant whenever
it exceeds the retry budget. -/
def runRequest (fuel : Nat) (cfg : RetryConfig) (method : String)
    (veto : Option Bool) (transport : Nat → Nat) (calls : Nat) :
    RequestOutcome × Nat :=
  match fuel with
  | 0 => (.error "out of fuel" cfg, calls)
  | fuel + 1 =>
    let status := transport calls
    let calls' := calls + 1
    if validateStatusDefault status then (.ok status, calls')
    else
      let err : AttemptFailure := ⟨method, some status, false⟩
      if shouldRetryRequest cfg veto err then
        runRequest fuel { cfg with currentRetryAttempt := cfg.currentRetryAttempt + 1 }
          method veto transport calls'
      else
        (.error ("Request failed with status code " ++ toString status) cfg, calls')

/-! Section: Response decoding (`Gaxios.getResponseData`,
`Gaxios.getResponseDataFromContentType`, `src/gaxios.ts`) -/

/-- The `responseType` enumeration from `src/common.ts`; `unknown` is the
content-type sniffing mode and the default after preparation. -/
inductive ResponseType where
  | arraybuffer
  | blob
  | json
  | text
  | stream
  | unknown
deriving Repr, DecidableEq

/-- What a decoded body can be, parametric in the platform JSON value type
`J`: the raw byte stream, text, a parsed JSON value, a fully-buffered
arraybuffer, or a blob. -/
inductive ResponseBodyData (J : Type) where
  | stream
  | text (s : String)
  | json (j : J)
  | arrayBuf
  | blob
deriving Repr, DecidableEq

/-- The transport's response as the decoder sees it: the body (readable once,
here its full text) and the declared `Content-Type` header, if any. -/
structure FetchResponseModel where
  bodyText : String
  contentType : Option String
deriving Repr, DecidableEq

/-- Embeds `Gaxios.getResponseDataFromContentType` from `src/gaxios.ts` (sniffing
mode), parametric in the platform JSON parser `parse`: no `Content-Type` →
text; a lowercased content type containing `application/json` → parse as JSON
and silently fall back to the raw text on parse failure; `text/...` → text;
anything else → blob. -/
def getResponseDataFromContentType {J : Type} (parse : String → Option J)
    (res : FetchResponseModel) : ResponseBodyData J :=
  match res.contentType with
  | none => .text res.bodyText
  | some ct =>
    let ct := strToLower ct
    if strContains ct "application/json" then
      match parse res.bodyText with
      | some j => .json j
      | none => .text res.bodyText
    else if strStartsWith ct "text/" then .text res.bodyText
    else .blob

/-- Embeds `Gaxios.getResponseData` from `src/gaxios.ts`, parametric in the platform
JSON parser. The `Except` layer records whether decoding threw; as in the
source, every branch returns rather than throws — in particular the `json`
branch fully consumes the body as text (`await res.text()`), tries
`JSON.parse`, and on failure the `catch` falls through and the raw text is
returned. -/
def getResponseData {J : Type} (parse : String → Option J)
    (responseType : ResponseType) (res : FetchResponseModel) :
    Except String (ResponseBodyData J) :=
  match responseType with
  | .stream => .ok .stream
  | .json =>
    let data := res.bodyText
    match parse data with
    | some j => .ok (.json j)
    | none => .ok (.text data)
  | .arraybuffer => .ok .arrayBuf
  | .blob => .ok .blob
  | .text => .ok (.text res.bodyText)
  | .unknown => .ok (getResponseDataFromContentType parse res)

/-- A JSON parser that fails on every input, for exercising the parse-failure
paths at concrete inputs. -/
def noJson : String → Option Unit := fun _ => none

/-! Section: Request preparation (`Gaxios.#prepareRequest`, `src/gaxios.ts`) -/

/-- The runtime shape of the `data` option, the closed set of cases
`#prepareRequest` distinguishes by reflection: absent (or otherwise falsy),
a readable stream, a `Buffer`, a plain object, a `FormData`, or a string. -/
inductive RequestData where
  | noData
  | streamData
  | bufferData (bytes : List Nat)
  | objData (fields : List (String × String))
  | formDataVal
  | strData (s : String)
deriving Repr, DecidableEq

/-- The default `paramsSerializer` of `Gaxios` (`qs.stringify`), with URI
escaping abstracted away. -/
def qsStringify (fields : List (String × String)) : String :=
  String.intercalate "&" (fields.map (fun kv => kv.1 ++ "=" ++ kv.2))

/-- Embeds `GaxiosOptions` from `src/common.ts`, restricted to the fields
`#prepareRequest` reads. `hasAgent` records a caller-supplied `agent`;
`errorRedactorDisabled` records `errorRedactor: false`. -/
structure GaxiosOptionsModel where
  url : Option String := none
  baseURL : Option String := none
  method : Option String := none
  headers : List (String × String) := []
  data : RequestData := .noData
  multipart : Option (List GaxiosMultipartOptions) := none
  params : List (String × String) := []
  paramsSerializer : Option (List (String × String) → String) := none
  responseType : Option ResponseType := none
  maxContentLength : Option Nat := none
  maxRedirects : Option Nat := none
  proxy : Option String := none
  noProxy : List String := []
  hasAgent : Bool := false
  cert : Option String := none
  key : Option String := none
  errorRedactorDisabled : Bool := false

/-- Key-by-key merge of two JS-object-like maps: entries of `over` overwrite
same-keyed entries of `base`, new keys are appended. -/
def mergeHeaderMaps (base over : List (String × String)) : List (String × String) :=
  over.foldl (fun acc kv => setHeaderExact acc kv.1 kv.2) base

/-- Embeds `extend(true, {}, defaults, options)` from `#prepareRequest`: call-site
values win, nested objects (headers, params) merge key-by-key. List-valued
fields take the call side when it is non-empty, approximating `extend`'s
index-wise array merge. -/
def mergeOptions (d o : GaxiosOptionsModel) : GaxiosOptionsModel where
  url := o.url <|> d.url
  baseURL := o.baseURL <|> d.baseURL
  method := o.method <|> d.method
  headers := mergeHeaderMaps d.headers o.headers
  data := if o.data == .noData then d.data else o.data
  multipart := o.multipart <|> d.multipart
  params := mergeHeaderMaps d.params o.params
  paramsSerializer := o.paramsSerializer <|> d.paramsSerializer
  responseType := o.responseType <|> d.responseType
  maxContentLength := o.maxContentLength <|> d.maxContentLength
  maxRedirects := o.maxRedirects <|> d.maxRedirects
  proxy := o.proxy <|> d.proxy
  noProxy := if o.noProxy.isEmpty then d.noProxy else o.noProxy
  hasAgent := o.hasAgent || d.hasAgent
  cert := o.cert <|> d.cert
  key := o.key <|> d.key
  errorRedactorDisabled := o.errorRedactorDisabled || d.errorRedactorDisabled

/-- Proxy-related environment variables (`src/gaxios.ts` reads the upper- and
lowercase HTTPS and HTTP proxy variables and `NO_PROXY ?? no_proxy`). -/
structure EnvModel where
  httpsProxyUpper : Option String := none
  httpsProxyLower : Option String := none
  httpProxyUpper : Option String := none
  httpProxyLower : Option String := none
  noProxyEnv : Option String := none

/-- JS `a || b || ...` over optional strings: the first truthy value. -/
def firstTruthy : List (Option String) → Option String
  | [] => none
  | v :: rest =>
    match v with
    | some s => if s == "" then firstTruthy rest else some s
    | none => firstTruthy rest

/-- The hostname of a URL string, by a naive parse: the authority up to the
first `/` with any `:port` stripped. -/
def hostnameOf (url : String) : String :=
  let rest := (afterSub "://".data url.data).getD url.data
  let auth := rest.takeWhile (fun c => c != '/')
  ⟨auth.takeWhile (fun c => c != ':')⟩

/-- The origin of a URL string, by a naive parse: `scheme://authority`. -/
def originOf (url : String) : String :=
  match afterSub "://".data url.data with
  | some rest =>
    (⟨url.data.takeWhile (fun c => c != ':')⟩ : String) ++ "://" ++
      (⟨rest.takeWhile (fun c => c != '/')⟩ : String)
  | none => url

/-- Embeds `Gaxios.#urlMayUseProxy` from `src/gaxios.ts`, for string rules (the
`RegExp` and `URL` typed rules are not modelled): the config rules are
concatenated with the trimmed comma-separated `NO_PROXY` environment rules; a
rule starting with `*.` or `.` matches as a hostname suffix after normalizing
the leading `*.` to `.`; otherwise it must equal the origin, the hostname, or
the whole URL. Any match suppresses proxy use. -/
def urlMayUseProxy (url : String) (noProxy : List String) (env : EnvModel) : Bool :=
  let envList :=
    match env.noProxyEnv with
    | none => []
    | some s => (splitOnComma s).map strTrim
  let rules := noProxy ++ envList
  !(rules.any fun rule =>
    if strStartsWith rule "*." || strStartsWith rule "." then
      let cleanedRule := if strStartsWith rule "*." then strDrop rule 1 else rule
      strEndsWith (hostnameOf url) cleanedRule
    else
      rule == originOf url || rule == hostnameOf url || rule == url)

/-- The transport-selection outcome of preparation: the caller's own agent, a
(possibly cached) proxy agent keyed by the proxy URL, a plain mTLS agent keyed
by the key material, or none. -/
inductive AgentChoice where
  | userAgent
  | proxyAgent (proxy : String)
  | mtlsAgent (key : String)
  | noAgent
deriving Repr, DecidableEq

/-- The request body after preparation. `jsonOf` stands for
`JSON.stringify(data)` of a plain object, kept symbolic. -/
inductive PreparedBody where
  | absent
  | streamBody
  | bufferBody (bytes : List Nat)
  | strBody (s : String)
  | jsonOf (fields : List (String × String))
  | multipartStream (chunks : List String)
deriving Repr, DecidableEq

/-- The observable fields of a prepared request (`GaxiosOptionsPrepared`):
resolved URL, method, headers, body, response type, the `size`/`follow`
translations of the content-length and redirect bounds, the chosen agent, and
whether an error redactor is active. -/
structure PreparedOptions where
  url : String
  method : String
  headers : List (String × String)
  body : PreparedBody
  responseType : ResponseType
  size : Option Nat
  follow : Option Nat
  agent : AgentChoice
  errorRedactorEnabled : Bool
deriving Repr, DecidableEq

/-- The body-derivation block of `#prepareRequest` (`src/gaxios.ts`): when no
multipart parts are given and `data` is truthy, streams and Buffers pass
through (a Buffer also forces `Content-Type: application/json` when none is
set), plain objects serialize as form pairs when the content type is
form-urlencoded and as JSON otherwise (setting the JSON content type only when
none is set), `FormData` sets no body, and other primitives pass through.
When multipart parts are present, the body is the multipart chunk stream for a
fresh `boundary` and the `Content-Type` records that boundary. Returns the
body and the updated headers. -/
def deriveBodyAndHeaders (opts : GaxiosOptionsModel) (serializer : List (String × String) → String)
    (boundary : String) : PreparedBody × List (String × String) :=
  let hs := opts.headers
  match opts.multipart with
  | none =>
    match opts.data with
    | .noData => (.absent, hs)
    | .streamData => (.streamBody, hs)
    | .bufferData b =>
      (.bufferBody b,
        if hasHeaderCI hs "Content-Type" then hs
        else setHeaderExact hs "Content-Type" "application/json")
    | .formDataVal => (.absent, hs)
    | .objData fields =>
      if getHeaderCI hs "content-type" == some "application/x-www-form-urlencoded" then
        (.strBody (serializer fields), hs)
      else
        (.jsonOf fields,
          if hasHeaderCI hs "Content-Type" then hs
          else setHeaderExact hs "Content-Type" "application/json")
    | .strData s =>
      if s == "" then (.absent, hs) else (.strBody s, hs)
  | some parts =>
    if parts.length > 0 then
      (.multipartStream (getMultipartRequest parts boundary),
        setHeaderExact hs "Content-Type" ("multipart/related; boundary=" ++ boundary))
    else (.absent, hs)

/-- Embeds `Gaxios.#prepareRequest` from `src/gaxios.ts`: merge call options over the
instance defaults; fail with the validation error if the merged URL is falsy;
resolve against the base URL; append serialized params with `?` or `&`; copy
`maxContentLength`/`maxRedirects` (read from the call options) to
`size`/`follow`; derive body and content-type headers; default the response
type to the sniffing mode; default `Accept: application/json` only when the
exact `Accept` key is falsy and the response type is `json`; default the
method to GET; resolve the proxy (explicit option winning over environment)
and pick the agent (a caller agent short-circuits, then proxy, then mTLS); and
enable the default error redactor unless disabled. The multipart `boundary`
models the fresh `uuid.v4()` draw of this preparation. -/
def prepareRequest (dflts options : GaxiosOptionsModel) (env : EnvModel)
    (boundary : String) : Except String PreparedOptions :=
  let opts := mergeOptions dflts options
  if isFalsyStr opts.url then .error "URL is required."
  else
    let url0 := opts.url.getD ""
    let url1 :=
      match opts.baseURL with
      | some b => if b == "" then url0 else b ++ url0
      | none => url0
    let serializer := opts.paramsSerializer.getD qsStringify
    let url2 :=
      if opts.params.length > 0 then
        let additional := serializer opts.params
        let additional := if strStartsWith additional "?" then strDrop additional 1 else additional
        let querySep := if strContains url1 "?" then "&" else "?"
        url1 ++ querySep ++ additional
      else url1
    let bh := deriveBodyAndHeaders opts serializer boundary
    let responseType := opts.responseType.getD .unknown
    let headers :=
      if isFalsyStr (lookupExact bh.2 "Accept") && responseType == .json then
        setHeaderExact bh.2 "Accept" "application/json"
      else bh.2
    let proxy := firstTruthy [opts.proxy, env.httpsProxyUpper, env.httpsProxyLower,
      env.httpProxyUpper, env.httpProxyLower]
    let mtls : AgentChoice :=
      if !(isFalsyStr opts.cert) && !(isFalsyStr opts.key) then
        .mtlsAgent (opts.key.getD "")
      else .noAgent
    let agent :=
      if opts.hasAgent then .userAgent
      else
        match proxy with
        | some p => if urlMayUseProxy url2 opts.noProxy env then .proxyAgent p else mtls
        | none => mtls
    .ok {
      url := url2
      method := falsyOr opts.method "GET"
      headers := headers
      body := bh.1
      responseType := responseType
      size := options.maxContentLength
      follow := options.maxRedirects
      agent := agent
      errorRedactorEnabled := !opts.errorRedactorDisabled }

/-- Embeds `Gaxios.request` from `src/gaxios.ts`: `#prepareRequest`, then the request
interceptor chain, then the retryable `_request` loop. A preparation failure
propagates before any interceptor or transport activity. Returns the outcome,
the number of transport invocations, and the number of interceptor handlers
run. -/
def requestCall (dflts options : GaxiosOptionsModel) (env : EnvModel) (boundary : String)
    (reqInterceptors : List (Option (PreparedOptions → PreparedOptions)))
    (rcfg : RetryConfig) (veto : Option Bool) (transport : Nat → Nat) (fuel : Nat) :
    RequestOutcome × Nat × Nat :=
  match prepareRequest dflts options env boundary with
  | .error e => (.error e rcfg, 0, 0)
  | .ok p =>
    let applied := reqInterceptors.foldl
      (fun (acc : PreparedOptions × Nat) i =>
        match i with
        | some f => (f acc.1, acc.2 + 1)
        | none => acc) (p, 0)
    let r := runRequest fuel rcfg applied.1.method veto transport 0
    (r.1, r.2, applied.2)

/-! Section: Error model (`GaxiosError` and `defaultErrorRedactor`, `src/common.ts`) -/

/-- The fixed redaction marker of `defaultErrorRedactor`. -/
def REDACT : String :=
  "<<REDACTED> - See `errorRedactor` option in `gaxios` for configuration>."

/-- The header-key test of `defaultErrorRedactor.redactHeaders`: any casing of
`Authentication` or `Authorization`, or anything containing `secret`. -/
def headerNeedsRedaction (k : String) : Bool :=
  strToLower k == "authentication" || strToLower k == "authorization" ||
    strContains (strToLower k) "secret"

/-- Embeds `defaultErrorRedactor.redactHeaders`: replace the value of every matching
header key with the redaction marker. -/
def redactHeaders (hs : List (String × String)) : List (String × String) :=
  hs.map (fun kv => if headerNeedsRedaction kv.1 then (kv.1, REDACT) else kv)

/-- The string test of `defaultErrorRedactor.redactString`: case-insensitive
occurrence of `grant_type=`, `assertion=`, or `secret`. -/
def stringNeedsRedaction (s : String) : Bool :=
  strContains (strToLower s) "grant_type=" || strContains (strToLower s) "assertion=" ||
    strContains (strToLower s) "secret"

/-- Embeds `defaultErrorRedactor.redactString` applied to an optional string field. -/
def redactString (v : Option String) : Option String :=
  v.map (fun s => if stringNeedsRedaction s then REDACT else s)

/-- The URL-search-params redaction of `defaultErrorRedactor`: the values of
`token` and `client_secret` parameters are replaced. -/
def redactParams (ps : List (String × String)) : List (String × String) :=
  ps.map (fun kv => if kv.1 == "token" || kv.1 == "client_secret" then (kv.1, REDACT) else kv)

/-- The slice of a prepared config the redactor can touch: headers,
string-valued `data` and `body`, and the URL's search parameters. -/
structure RedactableConfig where
  headers : List (String × String)
  data : Option String := none
  body : Option String := none
  urlParams : List (String × String) := []
deriving Repr, DecidableEq

/-- The slice of a response the error constructor and redactor touch. -/
structure RedactableResponse where
  config : RedactableConfig
  headers : List (String × String)
  status : Nat
  bodyUsed : Bool
  data : Option String := none
deriving Repr, DecidableEq

/-- Embeds `defaultErrorRedactor.redactObject` from `src/common.ts` as the
`GaxiosError` path reaches it for the string-valued `data`/`body` of this
model's config slice: a falsy value (`undefined` or `""`) returns without
action, but a truthy primitive string is no `FormData`/`URLSearchParams`
instance and then reaches `'forEach' in obj` — and in JS the `in` operator
on a primitive operand throws a `TypeError`. -/
def redactObjectStr (v : Option String) : Except String Unit :=
  match v with
  | none => .ok ()
  | some s =>
    if s == "" then .ok ()
    else .error "TypeError: Cannot use 'in' operator to search for 'forEach' in a string"

/-- The `data.config` branch of `defaultErrorRedactor` from `src/common.ts`,
in source order: redact the headers, run `redactString` then `redactObject`
on `data` (the latter throwing on any remaining truthy string), the same on
`body`, then redact the URL search params. -/
def redactConfigE (c : RedactableConfig) : Except String RedactableConfig :=
  match redactObjectStr (redactString c.data) with
  | .error e => .error e
  | .ok _ =>
    match redactObjectStr (redactString c.body) with
    | .error e => .error e
    | .ok _ =>
      .ok { headers := redactHeaders c.headers, data := redactString c.data,
            body := redactString c.body, urlParams := redactParams c.urlParams }

/-- Embeds `defaultErrorRedactor` from `src/common.ts`: redact the config
(which may throw, see `redactConfigE`); on the response, recurse into its
config, redact its headers, and — only when the body was consumed — redact
its data, where `redactObject` again throws on a truthy string. -/
def defaultErrorRedactorModel (c : RedactableConfig) (r : Option RedactableResponse) :
    Except String (RedactableConfig × Option RedactableResponse) :=
  match redactConfigE c with
  | .error e => .error e
  | .ok c' =>
    match r with
    | none => .ok (c', none)
    | some resp =>
      match redactConfigE resp.config with
      | .error e => .error e
      | .ok rc =>
        if resp.bodyUsed then
          match redactObjectStr (redactString resp.data) with
          | .error e => .error e
          | .ok _ =>
            .ok (c', some { resp with
              config := rc
              headers := redactHeaders resp.headers
              data := redactString resp.data })
        else
          .ok (c', some { resp with
            config := rc
            headers := redactHeaders resp.headers })

/-- The `errorRedactor` carried on a prepared config: `false` (disabled) or a
redactor function, which — like any JS function — may throw. -/
inductive RedactorSpec where
  | disabled
  | redactor (f : RedactableConfig → Option RedactableResponse →
      Except String (RedactableConfig × Option RedactableResponse))

/-- The default redactor as a `RedactorSpec`. It throws whenever a truthy
string `data` or `body` reaches `redactObject`. -/
def defaultRedactorSpec : RedactorSpec :=
  .redactor defaultErrorRedactorModel

/-- A redactor that throws on every input. -/
def throwingRedactorSpec : RedactorSpec :=
  .redactor (fun _ _ => .error "redactor failure")

/-- The error object the `GaxiosError` constructor produces. -/
structure GaxiosErrorModel where
  message : String
  config : RedactableConfig
  response : Option RedactableResponse
  status : Option Nat
deriving Repr, DecidableEq

/-- The `GaxiosError` constructor from `src/common.ts`, parametric in the
platform data translation (`translateData` composed with `JSON`/`Buffer`
primitives): deep-copy config and response (pure values here are already
owned); translate the response data inside a `try/catch` whose failure is
swallowed, leaving the data as-is (`bodyUsed: false` passes `undefined` to
the translation); record the response status; then, when a redactor is
configured, invoke it — this call is not guarded, so a redactor failure
propagates out of the constructor. -/
def mkGaxiosError
    (translate : Option String → Except String (Option String))
    (message : String) (config : RedactableConfig)
    (response : Option RedactableResponse) (red : RedactorSpec) :
    Except String GaxiosErrorModel :=
  let response :=
    match response with
    | some r =>
      some
        (match translate (if r.bodyUsed then r.data else none) with
        | .ok d => { r with data := d }
        | .error _ => r)
    | none => none
  let status := response.map (fun r => r.status)
  match red with
  | .disabled => .ok ⟨message, config, response, status⟩
  | .redactor f =>
    match f config response with
    | .ok (c, r) => .ok ⟨message, c, r, status⟩
    | .error e => .error e

/-- The headers of the config carried by a constructed error (empty when the
construction itself threw). -/
def errConfigHeaders (r : Except String GaxiosErrorModel) : List (String × String) :=
  match r with
  | .ok e => e.config.headers
  | .error _ => []

/-- A data translation that never fails. -/
def okTranslate : Option String → Except String (Option String) := fun d => .ok d

/-- A data translation that fails on every input (e.g. `JSON.parse` on a body
that is not JSON). -/
def failTranslate : Option String → Except String (Option String) :=
  fun _ => .error "translate failure"

/-- The headers of a successfully prepared request (empty on a preparation
failure); used to compare observable fields of prepared configs. -/
def preparedHeaders (r : Except String PreparedOptions) : List (String × String) :=
  match r with
  | .ok p => p.headers
  | .error _ => []

/-- A call options value whose merge carries one multipart part, for
exercising the multipart path of preparation at a concrete input. -/
def mpOptions : GaxiosOptionsModel :=
  { url := some "https://example.com/upload"
    multipart := some [⟨[], Sum.inl "hello"⟩] }

/-! Section: Theorems -/

/-- The loop guard of `drain` is exactly the negation of the `done` flag
`next()` reports, so `drain` is the `for..of` protocol over `next`. -/
theorem drain_guard {α : Type} (m : InterceptorManager α) :
    (m.next.1.done = false) ↔ m.index < m.interceptorQueue.length := by
  simp [InterceptorManager.next]

/-- Closed form of a complete iteration: it yields the queue entries from the
current index on, and leaves the index strictly past the queue length. -/
theorem drain_eq {α : Type} (m : InterceptorManager α) :
    drain m = (m.interceptorQueue.drop m.index,
      { interceptorQueue := m.interceptorQueue,
        index := max m.index m.interceptorQueue.length + 1 }) := by
  rw [drain]
  by_cases h : m.index < m.interceptorQueue.length
  · have ih := drain_eq { m with index := m.index + 1 }
    simp only [dif_pos h, InterceptorManager.next, dif_pos h] at ih ⊢
    simp only [ih, Prod.mk.injEq, InterceptorManager.mk.injEq, Option.getD_some]
    refine ⟨?_, trivial, ?_⟩
    · rw [List.drop_eq_getElem_cons h]
      simp
    · rw [max_eq_right h.le, max_eq_right h]
  · simp only [dif_neg h, InterceptorManager.next, Prod.mk.injEq,
      InterceptorManager.mk.injEq]
    refine ⟨?_, trivial, ?_⟩
    · rw [List.drop_eq_nil_of_le (by omega)]
    · rw [max_eq_left (Nat.not_lt.mp h)]
termination_by m.interceptorQueue.length - m.index

/-- C5: for every list of multipart parts and every boundary, the multipart
body builder emits, for each part in input order, the
`--boundary\r\nContent-Type: ...\r\n\r\n` preamble (content type defaulting
to `application/octet-stream`), then the part's content (strings directly,
stream chunks in order), then `\r\n`; and after all parts it emits exactly
`--boundary--`. -/
theorem multipart_body_layout (parts : List GaxiosMultipartOptions) (boundary : String) :
    getMultipartRequest parts boundary =
      (parts.map (multipartPartChunks boundary)).flatten ++ ["--" ++ boundary ++ "--"] := by
  induction parts with
  | nil => simp [getMultipartRequest]
  | cons p rest ih =>
    simp [getMultipartRequest, multipartPartChunks, ih]

/-- C10: the interceptor manager is its own iterator and its index is never
reset, so one complete iteration yields the queue entries from the current
index and a second complete iteration yields no entries; consequently a
second application of the interceptor chain to a value returns that value
unchanged — interceptors are applied during at most one `request` call. -/
theorem interceptor_chain_runs_once {β : Type} (m : InterceptorManager (β → β)) (v w : β) :
    (drain m).1 = m.interceptorQueue.drop m.index ∧
    (drain (drain m).2).1 = [] ∧
    (applyInterceptors (applyInterceptors m v).2 w).1 = w := by
  have hle : ∀ k : Nat, m.interceptorQueue.length ≤ max k m.interceptorQueue.length + 1 :=
    fun k => (le_max_right k _).trans (Nat.le_succ _)
  refine ⟨by rw [drain_eq], ?_, ?_⟩
  · rw [drain_eq, drain_eq]
    simp only
    rw [List.drop_eq_nil_of_le (hle _)]
  · simp only [applyInterceptors, drain_eq]
    rw [List.drop_eq_nil_of_le (hle _), List.foldl_nil]

/-- Removing an interceptor never changes the queue length. -/
theorem removeInterceptor_length {α : Type} (m : InterceptorManager α) (id : Nat) :
    (removeInterceptor m id).interceptorQueue.length = m.interceptorQueue.length := by
  unfold removeInterceptor
  split
  · simp
  · rfl

/-- Identifiers returned by `add` operations in any add/remove sequence are
bounded below by the starting queue length, strictly increasing, and the
queue length never decreases. -/
theorem runInterceptorOps_ids {α : Type} (ops : List (InterceptorOp α))
    (m : InterceptorManager α) :
    m.interceptorQueue.length ≤ (runInterceptorOps m ops).1.interceptorQueue.length ∧
    (∀ id ∈ (runInterceptorOps m ops).2, m.interceptorQueue.length ≤ id) ∧
    List.Pairwise (· < ·) (runInterceptorOps m ops).2 := by
  induction ops generalizing m with
  | nil => simp [runInterceptorOps]
  | cons op rest ih =>
    cases op with
    | add i =>
      obtain ⟨h1, h2, h3⟩ := ih { m with interceptorQueue := m.interceptorQueue ++ [some i] }
      simp only [List.length_append, List.length_cons, List.length_nil, Nat.zero_add] at h1 h2
      refine ⟨?_, ?_, ?_⟩
      · simp only [runInterceptorOps, addInterceptor]
        omega
      · simp only [runInterceptorOps, addInterceptor, List.mem_cons]
        rintro id (rfl | hid)
        · exact le_refl _
        · exact le_trans (Nat.le_succ _) (h2 id hid)
      · simp only [runInterceptorOps, addInterceptor]
        exact List.Pairwise.cons (fun id hid => lt_of_lt_of_le (Nat.lt_succ_self _) (h2 id hid)) h3
    | remove id =>
      obtain ⟨h1, h2, h3⟩ := ih (removeInterceptor m id)
      rw [removeInterceptor_length] at h1 h2
      exact ⟨h1, h2, h3⟩

/-- C6: `addInterceptor` returns the insertion index and appends; across any
sequence of add and remove operations the identifiers returned by adds are
strictly increasing, so an identifier is never reused even after removals;
and `removeInterceptor` marks the identified slot inert (`null`) without
changing the queue length or the entry at any other identifier. -/
theorem interceptor_ids_stable {α : Type} (m : InterceptorManager α) (i : α) (id j : Nat)
    (hj : j ≠ id) :
    (addInterceptor m i).2 = m.interceptorQueue.length ∧
    (addInterceptor m i).1.interceptorQueue = m.interceptorQueue ++ [some i] ∧
    (removeInterceptor m id).interceptorQueue.length = m.interceptorQueue.length ∧
    (removeInterceptor m id).interceptorQueue.getD id none = none ∧
    (removeInterceptor m id).interceptorQueue.getD j none = m.interceptorQueue.getD j none ∧
    ∀ ops : List (InterceptorOp α), List.Pairwise (· < ·) (runInterceptorOps m ops).2 := by
  refine ⟨rfl, rfl, removeInterceptor_length m id, ?_, ?_, fun ops => (runInterceptorOps_ids ops m).2.2⟩
  · unfold removeInterceptor
    split
    next h =>
      simp only [List.getD_eq_getElem?_getD]
      by_cases hid : id < m.interceptorQueue.length
      · rw [List.getElem?_set_self (by simpa using hid)]
        rfl
      · rw [List.getD_eq_getElem?_getD, List.getElem?_eq_none (by omega)] at h
        simp at h
    next h =>
      rw [List.getD_eq_getElem?_getD]
      by_cases hid : id < m.interceptorQueue.length
      · rw [List.getD_eq_getElem?_getD] at h
        cases hq : m.interceptorQueue[id]? with
        | none => rfl
        | some v =>
          rw [hq] at h
          cases v with
          | none => rfl
          | some i' => simp at h
      · rw [List.getElem?_eq_none (by omega)]
        rfl
  · unfold removeInterceptor
    split
    · simp only [List.getD_eq_getElem?_getD]
      rw [List.getElem?_set_ne (by omega)]
    · rfl

/-- Concrete run of `interceptor_ids_stable`: on a queue holding interceptors
`1` and `2`, removing slot `0` leaves slot `1` holding `2`. -/
theorem interceptor_ids_stable_witness :
    (removeInterceptor (⟨[some 1, some 2], 0⟩ : InterceptorManager Nat) 0).interceptorQueue.getD 1 none = some 2 := by
  have h := interceptor_ids_stable (⟨[some 1, some 2], 0⟩ : InterceptorManager Nat) 3 0 1 (by decide)
  rw [h.2.2.2.2.1]
  rfl

/-- C1: (spec-modelled retry engine) with an HTTP response present, a failed
attempt is deemed eligible for retry only if its method is in
`httpMethodsToRetry` (default GET, PUT, HEAD, OPTIONS, DELETE — not POST) and
its status falls within one of `statusCodesToRetry`; concretely, a POST
receiving a 500 under the default config is not retried — the loop makes
exactly one transport invocation and fails with `currentRetryAttempt` still
0. -/
theorem retry_eligibility_method_status (cfg : RetryConfig) (veto : Option Bool)
    (err : AttemptFailure) (s : Nat) (hs : err.status = some s)
    (helig : shouldRetryRequest cfg veto err = true) :
    (cfg.httpMethodsToRetry.contains err.method = true ∧
      statusInRanges cfg.statusCodesToRetry s = true) ∧
    (runRequest 5 defaultRetryConfig "POST" none (fun _ => 500) 0 =
      (.error "Request failed with status code 500" defaultRetryConfig, 1) ∧
      defaultRetryConfig.currentRetryAttempt = 0) := by
  refine ⟨?_, by decide, rfl⟩
  unfold shouldRetryRequest at helig
  by_cases hab : err.callerAborted
  · rw [if_pos hab] at helig
    exact absurd helig (by simp)
  · rw [if_neg (by simp [hab])] at helig
    by_cases hv : veto == some false
    · rw [if_pos hv] at helig
      exact absurd helig (by simp)
    · rw [if_neg (by simpa using hv), hs] at helig
      simp only [Bool.and_eq_true] at helig
      exact ⟨helig.1.1, helig.1.2⟩

/-- Concrete run of `retry_eligibility_method_status`: a GET with status 503
that the default engine retries has a retryable method and status. -/
theorem retry_eligibility_method_status_witness :
    defaultRetryConfig.httpMethodsToRetry.contains "GET" = true ∧
    statusInRanges defaultRetryConfig.statusCodesToRetry 503 = true :=
  (retry_eligibility_method_status defaultRetryConfig none ⟨"GET", some 503, false⟩ 503 rfl
    (by decide)).1

/-- C3: (spec-modelled retry engine) the delay before an eligible re-dispatch
is the caller-supplied backoff value when one is configured and otherwise
`min(maxRetryDelay, retryDelay * retryDelayMultiplier ^ currentRetryAttempt)`;
the actual sleep is that delay capped at the remaining budget under
`totalTimeout` — exactly the remaining budget when it is smaller — and the
sleep therefore never extends past the deadline. -/
theorem retry_delay_budget (cfg : RetryConfig) (backoff : Option Nat) (now : Nat) :
    appliedRetryDelay cfg none =
      min cfg.maxRetryDelay (cfg.retryDelay * cfg.retryDelayMultiplier ^ cfg.currentRetryAttempt) ∧
    (∀ b, appliedRetryDelay cfg (some b) = b) ∧
    sleepDuration cfg backoff now =
      min (appliedRetryDelay cfg backoff)
        (cfg.totalTimeout - (now - cfg.timeOfFirstRequest)) ∧
    ((now - cfg.timeOfFirstRequest) ≤ cfg.totalTimeout →
      (now - cfg.timeOfFirstRequest) + sleepDuration cfg backoff now ≤ cfg.totalTimeout) := by
  refine ⟨rfl, fun b => rfl, ?_, ?_⟩
  · by_cases h : cfg.totalTimeout - (now - cfg.timeOfFirstRequest) < appliedRetryDelay cfg backoff
    · simp only [sleepDuration, if_pos h]
      omega
    · simp only [sleepDuration, if_neg h]
      omega
  · intro hbudget
    by_cases h : cfg.totalTimeout - (now - cfg.timeOfFirstRequest) < appliedRetryDelay cfg backoff
    · simp only [sleepDuration, if_pos h]
      omega
    · simp only [sleepDuration, if_neg h]
      omega

/-- Concrete run of `retry_delay_budget`: with `totalTimeout` 150 and 100ms
already elapsed, the 100ms default delay is shortened to the remaining 50ms
and the deadline is respected. -/
theorem retry_delay_budget_witness :
    sleepDuration { defaultRetryConfig with totalTimeout := 150 } none 100 = 50 ∧
    (100 - ({ defaultRetryConfig with totalTimeout := 150 } : RetryConfig).timeOfFirstRequest) +
      sleepDuration { defaultRetryConfig with totalTimeout := 150 } none 100 ≤ 150 := by
  have h := retry_delay_budget { defaultRetryConfig with totalTimeout := 150 } none 100
  refine ⟨?_, h.2.2.2 (by decide)⟩
  rw [h.2.2.1]
  decide

/-- C2: when the merge of instance defaults and call options yields no URL
(absent, or falsy the way JS sees an empty string), `request` fails with the
validation error `URL is required.` before any network activity: zero
transport invocations occur and zero interceptor handlers run. -/
theorem request_requires_url (d o : GaxiosOptionsModel) (env : EnvModel) (boundary : String)
    (itcs : List (Option (PreparedOptions → PreparedOptions)))
    (rcfg : RetryConfig) (veto : Option Bool) (transport : Nat → Nat) (fuel : Nat)
    (hurl : isFalsyStr (mergeOptions d o).url = true) :
    requestCall d o env boundary itcs rcfg veto transport fuel =
      (.error "URL is required." rcfg, 0, 0) := by
  simp only [requestCall, prepareRequest, hurl, if_true]

/-- Concrete run of `request_requires_url`: empty defaults and empty call
options fail validation with no transport or interceptor activity. -/
theorem request_requires_url_witness :
    requestCall {} {} {} "boundary" [] defaultRetryConfig none (fun _ => 200) 3 =
      (.error "URL is required." defaultRetryConfig, 0, 0) :=
  request_requires_url {} {} {} "boundary" [] defaultRetryConfig none (fun _ => 200) 3 rfl

/-- Under `responseType: json` a JSON parse failure is not a decode failure:
the decoder returns the raw text successfully, exactly as the sniffing mode
does for a JSON content type. Refutes, at a concrete input, the claim that
the outcome is treated as a decode failure because the caller required
JSON. -/
theorem json_decode_failure_counterexample :
    getResponseData noJson .json ⟨"oops", some "application/json"⟩ =
      .ok (.text "oops") ∧
    getResponseData noJson .unknown ⟨"oops", some "application/json"⟩ =
      .ok (.text "oops") := by
  exact ⟨rfl, rfl⟩

/-- C4 (amended): under `responseType: json` the body is fully consumed as
text and a JSON parse failure silently falls back to returning that raw
text; under the sniffing mode (`unknown`) with a JSON content type, a parse
failure likewise silently falls back to the raw text. Neither mode raises a
decode failure. -/
theorem json_parse_silent_fallback {J : Type} (parse : String → Option J)
    (res : FetchResponseModel) (hfail : parse res.bodyText = none) :
    getResponseData parse .json res = .ok (.text res.bodyText) ∧
    (∀ ct, res.contentType = some ct → strContains (strToLower ct) "application/json" = true →
      getResponseData parse .unknown res = .ok (.text res.bodyText)) := by
  constructor
  · simp [getResponseData, hfail]
  · intro ct hct hjson
    simp [getResponseData, getResponseDataFromContentType, hct, hjson, hfail]

/-- Concrete run of `json_parse_silent_fallback`. -/
theorem json_parse_silent_fallback_witness :
    getResponseData noJson .json ⟨"nope", some "application/json"⟩ = .ok (.text "nope") :=
  (json_parse_silent_fallback noJson ⟨"nope", some "application/json"⟩ rfl).1

/-- The multipart boundary draw does not influence body derivation when the
merged options carry no multipart parts. -/
theorem deriveBody_boundary_irrelevant (opts : GaxiosOptionsModel)
    (serializer : List (String × String) → String) (b1 b2 : String)
    (h : opts.multipart = none ∨ opts.multipart = some []) :
    deriveBodyAndHeaders opts serializer b1 = deriveBodyAndHeaders opts serializer b2 := by
  rcases h with h | h <;> simp [deriveBodyAndHeaders, h]

/-- C9 (amended): preparation is a pure function of the instance defaults,
the call options and the environment whenever the merged options carry no
multipart parts: the per-preparation boundary entropy draw does not influence
the prepared config. -/
theorem prepare_deterministic_without_multipart (d o : GaxiosOptionsModel)
    (env : EnvModel) (b1 b2 : String)
    (h : (mergeOptions d o).multipart = none ∨ (mergeOptions d o).multipart = some []) :
    prepareRequest d o env b1 = prepareRequest d o env b2 := by
  simp only [prepareRequest]
  rw [deriveBody_boundary_irrelevant (mergeOptions d o)
    ((mergeOptions d o).paramsSerializer.getD qsStringify) b1 b2 h]

/-- Concrete run of `prepare_deterministic_without_multipart`. -/
theorem prepare_deterministic_without_multipart_witness :
    prepareRequest {} { url := some "https://example.com" } {} "b1" =
      prepareRequest {} { url := some "https://example.com" } {} "b2" :=
  prepare_deterministic_without_multipart {} { url := some "https://example.com" } {}
    "b1" "b2" (Or.inl rfl)

/-- Preparing the same call options against the same defaults twice is not
deterministic when multipart parts are present: the two preparations draw
different fresh boundaries, so the prepared `Content-Type` headers differ.
Refutes the claim at a concrete input. -/
theorem prepare_multipart_counterexample :
    preparedHeaders (prepareRequest {} mpOptions {} "b1") ≠
      preparedHeaders (prepareRequest {} mpOptions {} "b2") := by
  decide

/-- A failure raised inside the error redactor propagates out of the
`GaxiosError` constructor rather than being swallowed. Refutes, at a concrete
input, the claim that any redaction failure is swallowed. -/
theorem redactor_failure_propagates :
    mkGaxiosError okTranslate "boom" ⟨[("Authorization", "Bearer x")], none, none, []⟩
      none throwingRedactorSpec = .error "redactor failure" := rfl

/-- C7 (amended): inside the `GaxiosError` constructor the response-data
translation step is guarded — its failure is swallowed, leaving the carried
response data in place — while the `errorRedactor` invocation is not guarded:
a failure raised inside the redactor propagates out of the error
constructor. -/
theorem error_construction_guards (message : String) (config : RedactableConfig)
    (resp : Option RedactableResponse) :
    mkGaxiosError failTranslate message config resp .disabled =
      .ok ⟨message, config, resp, resp.map (fun r => r.status)⟩ ∧
    (∀ e, mkGaxiosError okTranslate message config resp
        (.redactor (fun _ _ => .error e)) = .error e) := by
  constructor
  · cases resp <;> simp [mkGaxiosError, failTranslate]
  · intro e
    cases resp <;> simp [mkGaxiosError, okTranslate]

/-- Whenever the config branch of the default redactor completes without
throwing, the config it produces carries `redactHeaders` of the original
headers. -/
theorem redactConfigE_ok_headers (c c' : RedactableConfig)
    (h : redactConfigE c = .ok c') : c'.headers = redactHeaders c.headers := by
  unfold redactConfigE at h
  split at h
  · cases h
  · split at h
    · cases h
    · cases h
      rfl

/-- Whenever the default redactor completes without throwing, the config
component of its result carries `redactHeaders` of the original headers. -/
theorem defaultErrorRedactorModel_ok_headers (c : RedactableConfig)
    (r : Option RedactableResponse) (x : RedactableConfig × Option RedactableResponse)
    (h : defaultErrorRedactorModel c r = .ok x) :
    x.1.headers = redactHeaders c.headers := by
  unfold defaultErrorRedactorModel at h
  split at h
  · cases h
  next c' hc =>
    have hh := redactConfigE_ok_headers c c' hc
    split at h
    · cases h
      exact hh
    · split at h
      · cases h
      · split at h
        · split at h
          · cases h
          · cases h
            exact hh
        · cases h
          exact hh

/-- Whenever the `GaxiosError` constructor with the default redactor actually
produces an error, that error's config headers are `redactHeaders` of the
input config's headers. -/
theorem mkGaxiosError_default_ok_headers
    (translate : Option String → Except String (Option String))
    (message : String) (config : RedactableConfig)
    (resp : Option RedactableResponse) (e : GaxiosErrorModel)
    (h : mkGaxiosError translate message config resp defaultRedactorSpec = .ok e) :
    e.config.headers = redactHeaders config.headers := by
  simp only [mkGaxiosError, defaultRedactorSpec] at h
  split at h
  next c r hcr =>
    cases h
    exact defaultErrorRedactorModel_ok_headers config _ (c, r) hcr
  next hcr => cases h

/-- The default redactor's crash path is real in the model: a config carrying
a truthy string `data` reaches `redactObject`, whose `'forEach' in obj` test
throws on a primitive, and the unguarded constructor call propagates it, so
no error object is produced. -/
theorem default_redactor_throws_on_string_data :
    mkGaxiosError okTranslate "m"
      ⟨[("Authorization", "Bearer x")], some "grant_type=a", none, []⟩ none
      defaultRedactorSpec =
    .error "TypeError: Cannot use 'in' operator to search for 'forEach' in a string" := rfl

/-- C8: for every error the constructor actually produces with the default
redactor enabled, a header literally named `Authorization` (any casing) in
the error's carried config is replaced with the fixed redaction marker,
while a header whose key needs no redaction passes through unchanged. (A
config carrying a truthy string `data` or `body` makes the source's
`redactObject` throw, so no error is produced there at all.) -/
theorem default_redactor_headers (message : String) (config : RedactableConfig)
    (resp : Option RedactableResponse) (e : GaxiosErrorModel) (k v : String)
    (hok : mkGaxiosError okTranslate message config resp defaultRedactorSpec = .ok e)
    (hmem : (k, v) ∈ config.headers) :
    (strToLower k = "authorization" → (k, REDACT) ∈ e.config.headers) ∧
    (headerNeedsRedaction k = false → (k, v) ∈ e.config.headers) := by
  have hh : e.config.headers = redactHeaders config.headers :=
    mkGaxiosError_default_ok_headers okTranslate message config resp e hok
  constructor
  · intro hk
    rw [hh]
    have hneed : headerNeedsRedaction k = true := by
      simp [headerNeedsRedaction, hk]
    have hmap := List.mem_map_of_mem
      (fun kv : String × String => if headerNeedsRedaction kv.1 then (kv.1, REDACT) else kv) hmem
    simpa [redactHeaders, hneed] using hmap
  · intro hk
    rw [hh]
    have hmap := List.mem_map_of_mem
      (fun kv : String × String => if headerNeedsRedaction kv.1 then (kv.1, REDACT) else kv) hmem
    simpa [redactHeaders, hk] using hmap

/-- Concrete run of `default_redactor_headers`: construction succeeds on a
config with no body text, `AUTHORIZATION` is replaced by the marker and
`X-Other` passes through. -/
theorem default_redactor_headers_witness :
    ("AUTHORIZATION", REDACT) ∈
      (GaxiosErrorModel.mk "m"
        ⟨[("AUTHORIZATION", REDACT), ("X-Other", "v")], none, none, []⟩
        none none).config.headers ∧
    ("X-Other", "v") ∈
      (GaxiosErrorModel.mk "m"
        ⟨[("AUTHORIZATION", REDACT), ("X-Other", "v")], none, none, []⟩
        none none).config.headers :=
  ⟨(default_redactor_headers "m"
      ⟨[("AUTHORIZATION", "Bearer tok"), ("X-Other", "v")], none, none, []⟩ none
      (GaxiosErrorModel.mk "m"
        ⟨[("AUTHORIZATION", REDACT), ("X-Other", "v")], none, none, []⟩ none none)
      "AUTHORIZATION" "Bearer tok" rfl (by decide)).1 (by decide),
   (default_redactor_headers "m"
      ⟨[("AUTHORIZATION", "Bearer tok"), ("X-Other", "v")], none, none, []⟩ none
      (GaxiosErrorModel.mk "m"
        ⟨[("AUTHORIZATION", REDACT), ("X-Other", "v")], none, none, []⟩ none none)
      "X-Other" "v" rfl (by decide)).2 (by decide)⟩

end GaxiosModel
